import Mathlib

/-!
Shallow embedding of the finch-tiled repository (Go) for checking its
natural-language specification.

Modelling conventions:
* Go machine integers are modelled as Int (Go int is 64-bit) and Nat with
  explicit reduction mod 2 ^ 32 where a conversion to uint32 happens.
* Go float64 coordinates: every coordinate this code computes is derived
  from integers by addition, subtraction and multiplication, on which float64
  arithmetic is exact at the scales involved, so tile and rectangle
  coordinates are modelled as exact integers; the affine-transform entries of
  the render matrix are modelled as exact rationals.
* Fallible Go code (error returns) is modelled with Except or Option.
* External collaborators (the asset store behind GetTSX, the byte loader and
  markup unmarshaller behind load_tmx, and the finch-core geom.Rect64
  Intersects method) are passed in as explicit function or value parameters.
-/

namespace FinchTiled

/-! ## Go standard-library helpers used by the embedded code -/

/-- Character class of unicode.IsSpace for the code points that Go
strings.TrimSpace and fmt scanning treat as space (ASCII range plus NEL and
NBSP; other unicode spaces never appear in the inputs of this repository). -/
def goIsSpace (c : Char) : Bool :=
  c = ' ' || c = '\t' || c = '\n' || c = Char.ofNat 11 || c = Char.ofNat 12 ||
  c = Char.ofNat 13 || c = Char.ofNat 133 || c = Char.ofNat 160

/-- Accumulator form of splitting a character list on commas, as Go
strings.Split(data, ",") does: every comma ends a token, and the token in
progress (possibly empty) is emitted at the end. -/
def goSplitCommaAux : List Char → List Char → List (List Char)
  | [], acc => [acc.reverse]
  | c :: rest, acc =>
      if c = ',' then acc.reverse :: goSplitCommaAux rest []
      else goSplitCommaAux rest (c :: acc)

/-- Go strings.Split(data, ",") on the underlying character list. -/
def goSplitComma (s : List Char) : List (List Char) :=
  goSplitCommaAux s []

/-- Go strings.TrimSpace: drop space characters from both ends. -/
def goTrimSpace (s : List Char) : List Char :=
  ((s.dropWhile goIsSpace).reverse.dropWhile goIsSpace).reverse

/-- Decimal value of a digit run, accumulator style, failing on the first
non-digit character; mirrors the digit loop of Go strconv.Atoi. -/
def goDigitsAux : List Char → Nat → Option Nat
  | [], acc => some acc
  | c :: rest, acc =>
      if c.isDigit then goDigitsAux rest (acc * 10 + (c.toNat - 48))
      else none

/-- Bounds of the Go 64-bit int type. -/
def goIntMin : Int := -(2 ^ 63)

/-- Upper bound (inclusive) of the Go 64-bit int type. -/
def goIntMax : Int := 2 ^ 63 - 1

/-- Go strconv.Atoi: an optional sign followed by one or more digits and
nothing else; any other content, an empty string, or a value outside the
64-bit int range is an error (none). -/
def goAtoi (s : List Char) : Option Int :=
  let signed : List Char → Bool × List Char := fun t =>
    match t with
    | '-' :: rest => (true, rest)
    | '+' :: rest => (false, rest)
    | _ => (false, t)
  let (neg, digits) := signed s
  if digits.isEmpty then none
  else
    match goDigitsAux digits 0 with
    | none => none
    | some n =>
        let v : Int := if neg then -(n : Int) else (n : Int)
        if v < goIntMin || goIntMax < v then none else some v

/-- Go conversion uint32(v) for a Go int v: the low 32 bits, i.e. the value
modulo 2 ^ 32. -/
def goUInt32Of (v : Int) : Nat :=
  (v % (2 ^ 32 : Int)).toNat

/-- Go fmt.Sscanf(s, "%d", &v): leading space characters are skipped, then an
optional sign and a maximal run of at least one decimal digit are consumed;
everything after that run is ignored. Only a missing digit run (or a value
outside the int range) is an error. -/
def goSscanfInt (s : List Char) : Option Int :=
  let t := s.dropWhile goIsSpace
  let signed : List Char → Bool × List Char := fun u =>
    match u with
    | '-' :: rest => (true, rest)
    | '+' :: rest => (false, rest)
    | _ => (false, u)
  let (neg, body) := signed t
  let digits := body.takeWhile Char.isDigit
  if digits.isEmpty then none
  else
    match goDigitsAux digits 0 with
    | none => none
    | some n =>
        let v : Int := if neg then -(n : Int) else (n : Int)
        if v < goIntMin || goIntMax < v then none else some v

/-! ## types.go: attribute values and the attribute table -/

/-- Tagged attribute value, the dynamic TiledXMLAttr (AttrString, AttrInt or
AttrBool) of types.go. -/
inductive TiledXMLAttr where
  | str (s : String)
  | int (i : Int)
  | bool (b : Bool)
deriving DecidableEq, Repr

/-- Attribute table map[string]TiledXMLAttr, modelled as an association list
with unique keys (Go map semantics for lookup and insert). -/
abbrev TiledXMLAttrTable := List (String × TiledXMLAttr)

/-- Go map read attrs[key]: the value stored under the key, if any. -/
def lookupAttr : TiledXMLAttrTable → String → Option TiledXMLAttr
  | [], _ => none
  | (k, v) :: rest, key => if k = key then some v else lookupAttr rest key

/-- UnmarshalAttrString of types.go: the identity decoder. -/
def UnmarshalAttrString (s : String) : Except String TiledXMLAttr :=
  .ok (.str s)

/-- UnmarshalAttrInt of types.go: parses via fmt.Sscanf(s, "%d", &v) and
reports an error only when Sscanf does. -/
def UnmarshalAttrInt (s : String) : Except String TiledXMLAttr :=
  match goSscanfInt s.data with
  | some v => .ok (.int v)
  | none => .error ("invalid integer attribute: " ++ s)

/-- UnmarshalAttrBool of types.go: accepts 1/true and 0/false only. -/
def UnmarshalAttrBool (s : String) : Except String TiledXMLAttr :=
  if s = "1" || s = "true" then .ok (.bool true)
  else if s = "0" || s = "false" then .ok (.bool false)
  else .error ("invalid boolean attribute: " ++ s)

/-! ## Bit-flag constants (decoding.go and types.go) -/

/-- Mask of the 29 tile-index bits (TILE_ID in decoding.go). -/
def TILE_ID : Nat := 0x1FFFFFFF

/-- Horizontal-flip bit of a raw cell value (bit 31). -/
def FLIP_HORIZONTALLY : Nat := 0x80000000

/-- Vertical-flip bit of a raw cell value (bit 30). -/
def FLIP_VERTICALLY : Nat := 0x40000000

/-- Diagonal-flip bit of a raw cell value (bit 29). -/
def FLIP_DIAGONALLY : Nat := 0x20000000

/-- Hexagonal-rotation bit of a raw cell value (bit 28). -/
def FLIP_ROTATED_HEX : Nat := 0x10000000

/-- TILE_ID_MASK of types.go; same value as TILE_ID. -/
def TILE_ID_MASK : Nat := 0x1FFFFFFF

/-- TILE_FLIP_HORIZONTAL of types.go. -/
def TILE_FLIP_HORIZONTAL : Nat := 0x80000000

/-- TILE_FLIP_VERTICAL of types.go. -/
def TILE_FLIP_VERTICAL : Nat := 0x40000000

/-- TILE_FLIP_DIAGONAL of types.go. -/
def TILE_FLIP_DIAGONAL : Nat := 0x20000000

/-- TILE_FLIP_ROTATED_HEX of types.go. -/
def TILE_FLIP_ROTATED_HEX : Nat := 0x10000000

/-- TiledFlags constants of types.go (small bit set carried on a decoded
render tile). -/
def FLIP_HORIZONTAL : Nat := 2

/-- TiledFlags vertical-flip bit. -/
def FLIP_VERTICAL : Nat := 4

/-- TiledFlags diagonal-flip bit. -/
def FLIP_DIAGONAL : Nat := 8

/-- TiledFlags hexagonal-rotation bit. -/
def FLIP_ROTATED_HEX_FLAG : Nat := 16

/-! ## decoding.go: the pure GID codec -/

/-- Result of DecodeTile in decoding.go. -/
structure TileDecoded where
  gid : Nat
  horizontalFlip : Bool
  verticalFlip : Bool
  diagonalFlip : Bool
  hexagonalRotate : Bool
deriving DecidableEq, Repr

/-- DecodeTile of decoding.go: pure mask-and-test extraction of the tile
index and the four transform bits from a raw 32-bit cell value. -/
def DecodeTile (raw : Nat) : TileDecoded :=
  { gid := raw &&& TILE_ID
    horizontalFlip := raw &&& FLIP_HORIZONTALLY != 0
    verticalFlip := raw &&& FLIP_VERTICALLY != 0
    diagonalFlip := raw &&& FLIP_DIAGONALLY != 0
    hexagonalRotate := raw &&& FLIP_ROTATED_HEX != 0 }

/-- Flag computation of decodeTile in draw.go (lines 289-306): the four raw
bits are copied into TiledFlags, except that when the diagonal bit is set and
at least one of the horizontal or vertical bits is set, both the horizontal
and the vertical TiledFlags bits are toggled. -/
def decodeTileFlags (data : Nat) : Nat :=
  let flags : Nat := 0
  let flags := if data &&& TILE_FLIP_HORIZONTAL != 0 then flags ||| FLIP_HORIZONTAL else flags
  let flags := if data &&& TILE_FLIP_VERTICAL != 0 then flags ||| FLIP_VERTICAL else flags
  let flags :=
    if data &&& TILE_FLIP_DIAGONAL != 0 then
      let f := flags ||| FLIP_DIAGONAL
      if f &&& (FLIP_HORIZONTAL ||| FLIP_VERTICAL) != 0 then
        f ^^^ (FLIP_HORIZONTAL ||| FLIP_VERTICAL)
      else f
    else flags
  if data &&& TILE_FLIP_ROTATED_HEX != 0 then flags ||| FLIP_ROTATED_HEX_FLAG else flags

/-! ## tmx.go and tsx.go: the decoded document model -/

/-- TMXTileset of tmx.go: a tileset reference inside a map document, backed
by its attribute table. -/
structure TMXTileset where
  attrs : TiledXMLAttrTable
deriving DecidableEq, Repr

/-- FirstGID accessor of TMXTileset: the firstgid attribute read as an
integer and converted with uint32(...), defaulting to 0 when the attribute is
absent or has a different tag. -/
def TMXTileset.FirstGID (ts : TMXTileset) : Nat :=
  match lookupAttr ts.attrs "firstgid" with
  | some (.int i) => goUInt32Of i
  | _ => 0

/-- Source accessor of TMXTileset, defaulting to the empty string. -/
def TMXTileset.Source (ts : TMXTileset) : String :=
  match lookupAttr ts.attrs "source" with
  | some (.str s) => s
  | _ => ""

/-- TMXDataChunk of tmx.go: one chunk of an infinite layer. -/
structure TMXDataChunk where
  attrs : TiledXMLAttrTable
  data : String
deriving DecidableEq, Repr

/-- X accessor of TMXDataChunk (tile units), defaulting to 0. -/
def TMXDataChunk.X (c : TMXDataChunk) : Int :=
  match lookupAttr c.attrs "x" with
  | some (.int i) => i
  | _ => 0

/-- Y accessor of TMXDataChunk (tile units), defaulting to 0. -/
def TMXDataChunk.Y (c : TMXDataChunk) : Int :=
  match lookupAttr c.attrs "y" with
  | some (.int i) => i
  | _ => 0

/-- Width accessor of TMXDataChunk (tile units), defaulting to 0. -/
def TMXDataChunk.Width (c : TMXDataChunk) : Int :=
  match lookupAttr c.attrs "width" with
  | some (.int i) => i
  | _ => 0

/-- Height accessor of TMXDataChunk (tile units), defaulting to 0. -/
def TMXDataChunk.Height (c : TMXDataChunk) : Int :=
  match lookupAttr c.attrs "height" with
  | some (.int i) => i
  | _ => 0

/-- TMXLayerData of tmx.go: the data child of a layer, holding either a dense
payload string or a chunk list. -/
structure TMXLayerData where
  attrs : TiledXMLAttrTable
  chunks : List TMXDataChunk
  data : String
deriving DecidableEq, Repr

/-- TSXTileOffset of tmx.go, backed by its attribute table. -/
structure TSXTileOffset where
  attrs : TiledXMLAttrTable
deriving DecidableEq, Repr

/-- X accessor of TSXTileOffset, defaulting to 0. -/
def TSXTileOffset.X (o : TSXTileOffset) : Int :=
  match lookupAttr o.attrs "x" with
  | some (.int i) => i
  | _ => 0

/-- Y accessor of TSXTileOffset, defaulting to 0. -/
def TSXTileOffset.Y (o : TSXTileOffset) : Int :=
  match lookupAttr o.attrs "y" with
  | some (.int i) => i
  | _ => 0

/-- TSX of tsx.go: a tileset document; the fields that the embedded render
path reads (the image element is consumed only by the external blitter). -/
structure TSX where
  attrs : TiledXMLAttrTable
  tileOffset : Option TSXTileOffset
deriving DecidableEq, Repr

/-- TileWidth accessor of TSX, defaulting to 0. -/
def TSX.TileWidth (t : TSX) : Int :=
  match lookupAttr t.attrs "tilewidth" with
  | some (.int i) => i
  | _ => 0

/-- TileHeight accessor of TSX, defaulting to 0. -/
def TSX.TileHeight (t : TSX) : Int :=
  match lookupAttr t.attrs "tileheight" with
  | some (.int i) => i
  | _ => 0

/-! ## Geometry (finch-core geom.Rect64, as consumed by this repository) -/

/-- Axis-aligned rectangle NewRect64(x, y, w, h); Min() is (x, y) and Max()
is (x + w, y + h). Coordinates are exact rationals standing for the float64
values, which are exact on the integer-derived data this code feeds them. -/
structure Rect64 where
  x : Int
  y : Int
  w : Int
  h : Int
deriving DecidableEq, Repr

/-- Minimum corner x of a Rect64. -/
def Rect64.minX (r : Rect64) : Int := r.x

/-- Minimum corner y of a Rect64. -/
def Rect64.minY (r : Rect64) : Int := r.y

/-- Maximum corner x of a Rect64. -/
def Rect64.maxX (r : Rect64) : Int := r.x + r.w

/-- Maximum corner y of a Rect64. -/
def Rect64.maxY (r : Rect64) : Int := r.y + r.h

/-! ## draw.go: render tiles, the CSV codec and the decode pipeline -/

/-- Tile of types.go: one decoded, transform-annotated render tile. -/
structure Tile where
  gid : Nat
  tsxSrc : String
  x : Int
  y : Int
  width : Int
  height : Int
  flags : Nat
deriving DecidableEq, Repr

/-- Decode error of the CSV layer codec, naming the offending token (the Go
code wraps the strconv error, whose message carries the token). -/
inductive DecodeErr where
  | invalidToken (tok : String)
deriving DecidableEq, Repr

/-- Token loop of parseCsvData in draw.go: trim each comma-separated token,
skip empty tokens, parse the rest with strconv.Atoi and convert to uint32;
the first bad token aborts the whole decode. -/
def parseCsvTokens : List (List Char) → Except DecodeErr (List Nat)
  | [] => .ok []
  | tok :: rest =>
      let t := goTrimSpace tok
      if t.isEmpty then parseCsvTokens rest
      else
        match goAtoi t with
        | none => .error (.invalidToken (String.mk t))
        | some v =>
            match parseCsvTokens rest with
            | .error e => .error e
            | .ok l => .ok (goUInt32Of v :: l)

/-- parseCsvData of draw.go: split the payload on commas and run the token
loop. parse_csv_layer_data of decoding.go is textually the same function. -/
def parseCsvData (s : String) : Except DecodeErr (List Nat) :=
  parseCsvTokens (goSplitComma s.data)

/-- parse_csv_layer_data of decoding.go (identical to parseCsvData). -/
def parse_csv_layer_data (s : String) : Except DecodeErr (List Nat) :=
  parseCsvData s

/-- Backward scan shared by FindTilesetByTileGID in tmx.go and the tileset
loop of decodeTile in draw.go: walk the tileset list from the last element
down and return the first whose FirstGID is at most gid. -/
def findTilesetScan (tilesets : List TMXTileset) (gid : Nat) : Option TMXTileset :=
  match tilesets with
  | [] => none
  | ts :: rest =>
      match findTilesetScan rest gid with
      | some r => some r
      | none => if ts.FirstGID ≤ gid then some ts else none

/-- decodeTile of draw.go: mask out the tile index (an index of 0 is an empty
cell and decodes to no tile and no error), compute the TiledFlags, resolve
the owning tileset by the backward scan, fetch its TSX document from the
asset store (the env parameter), and build the render tile with the tileset
offset and the bottom-left anchor adjustment applied. -/
def decodeTile (data : Nat) (tilesets : List TMXTileset) (env : String → Option TSX)
    (cellHeight : Int) : Except String (Option Tile) :=
  let gid := data &&& TILE_ID_MASK
  if gid = 0 then .ok none
  else
    let flags := decodeTileFlags data
    match findTilesetScan tilesets gid with
    | none => .error "no tileset found for GID"
    | some tileset =>
        match env tileset.Source with
        | none => .error "could not retrieve tsx asset"
        | some tsx =>
            let x : Int := match tsx.tileOffset with
              | some off => off.X
              | none => 0
            let y : Int := (match tsx.tileOffset with
              | some off => off.Y
              | none => 0) + (cellHeight - tsx.TileHeight)
            .ok (some
              { gid := gid - tileset.FirstGID
                tsxSrc := tileset.Source
                x := x
                y := y
                width := tsx.TileWidth
                height := tsx.TileHeight
                flags := flags })

/-- Index loop of decodeTiles in draw.go: decode each raw cell value, skip
empty cells, and shift each produced tile to its cell position computed from
the running index (Go integer division and modulus truncate toward zero). -/
def decodeTilesAux (tilesets : List TMXTileset) (env : String → Option TSX)
    (localStartX localStartY cellPerRow cellWidth cellHeight : Int) :
    List Nat → Int → Except String (List Tile)
  | [], _ => .ok []
  | v :: rest, i =>
      match decodeTile v tilesets env cellHeight with
      | .error e => .error e
      | .ok none => decodeTilesAux tilesets env localStartX localStartY cellPerRow cellWidth cellHeight rest (i + 1)
      | .ok (some t) =>
          let px : Int := localStartX + (i.tmod cellPerRow) * cellWidth
          let py : Int := localStartY + (i.tdiv cellPerRow) * cellHeight
          let t := { t with x := t.x + px, y := t.y + py }
          match decodeTilesAux tilesets env localStartX localStartY cellPerRow cellWidth cellHeight rest (i + 1) with
          | .error e => .error e
          | .ok l => .ok (t :: l)

/-- decodeTiles of draw.go: parse the CSV payload, then run the index loop
with cellPerRow computed by Go integer division of the layer width by the
cell width. CSV decode errors are surfaced with their token message. -/
def decodeTiles (data : String) (tilesets : List TMXTileset) (env : String → Option TSX)
    (localStartX localStartY layerWidth _layerHeight cellWidth cellHeight : Int) :
    Except String (List Tile) :=
  match parseCsvData data with
  | .error (.invalidToken tok) => .error ("invalid CSV layer data: " ++ tok)
  | .ok parsed =>
      let cellPerRow := layerWidth.tdiv cellWidth
      decodeTilesAux tilesets env localStartX localStartY cellPerRow cellWidth cellHeight parsed 0

/-- Partition store of a layer: the LayerPartitions map from a chunk
rectangle to its decoded tile list, modelled as an association list with
unique keys (Go map lookup and insert semantics; this code only ever inserts
fresh keys). -/
abbrev LayerPartitions := List (Rect64 × List Tile)

/-- Go map read partitions[rect]. -/
def lookupPartition : LayerPartitions → Rect64 → Option (List Tile)
  | [], _ => none
  | (r, ts) :: rest, rect => if r = rect then some ts else lookupPartition rest rect

/-- Layer of draw.go (the TMXLayer shape of tmx.go): the attribute table, the
optional data child, and the two derived decode caches, which are nil until
populated (tiles for finite maps, partitions for infinite maps). -/
structure Layer where
  attrs : TiledXMLAttrTable
  data : Option TMXLayerData
  tiles : Option (List Tile)
  partitions : Option LayerPartitions
deriving DecidableEq, Repr

/-- Width accessor of a layer, defaulting to 0. -/
def Layer.Width (l : Layer) : Int :=
  match lookupAttr l.attrs "width" with
  | some (.int i) => i
  | _ => 0

/-- Height accessor of a layer, defaulting to 0. -/
def Layer.Height (l : Layer) : Int :=
  match lookupAttr l.attrs "height" with
  | some (.int i) => i
  | _ => 0

/-- Name accessor of a layer, defaulting to the empty string. -/
def Layer.Name (l : Layer) : String :=
  match lookupAttr l.attrs "name" with
  | some (.str s) => s
  | _ => ""

/-- IsVisible accessor of a layer: the visible attribute when present with a
boolean tag, true by convention otherwise. -/
def Layer.IsVisible (l : Layer) : Bool :=
  match lookupAttr l.attrs "visible" with
  | some (.bool b) => b
  | _ => true

/-- Geometric pre-check of processChunks in draw.go: a chunk is skipped when
its pixel rectangle lies strictly outside the query region on some axis. -/
def chunkOutsideRegion (region : Rect64) (cminx cminy cmaxx cmaxy : Int) : Bool :=
  cmaxx < region.minX || cminx > region.maxX || cmaxy < region.minY || cminy > region.maxY

/-- Pre-check of processChunks applied to one chunk, with the corner values
(cminx, cminy) = (x, y) in pixels and (cmaxx, cmaxy) = the corners plus the
pixel extent, exactly as the loop computes them. -/
def chunkGeomSkip (region : Rect64) (c : TMXDataChunk) (cellWidth cellHeight : Int) : Bool :=
  chunkOutsideRegion region (c.X * cellWidth) (c.Y * cellHeight)
    (c.X * cellWidth + c.Width * cellWidth) (c.Y * cellHeight + c.Height * cellHeight)

/-- Key rectangle NewRect64(cminx, cminy, cmaxx - cminx, cmaxy - cminy) that
processChunks builds for one chunk. -/
def chunkRectOf (c : TMXDataChunk) (cellWidth cellHeight : Int) : Rect64 :=
  ⟨c.X * cellWidth, c.Y * cellHeight,
   (c.X * cellWidth + c.Width * cellWidth) - c.X * cellWidth,
   (c.Y * cellHeight + c.Height * cellHeight) - c.Y * cellHeight⟩

/-- Chunk loop of processChunks in draw.go. It threads the partition store
through the chunk list: a chunk is skipped when its rectangle is strictly
outside the region, when its rectangle is already a key of the store, or when
the Intersects test (a finch-core method, passed in as inter) rejects it;
otherwise its payload is decoded and the result inserted under its rectangle.
A decode error aborts the loop, keeping the insertions made so far. -/
def processChunksAux (tilesets : List TMXTileset) (env : String → Option TSX)
    (region : Rect64) (cellWidth cellHeight : Int) (inter : Rect64 → Rect64 → Bool) :
    List TMXDataChunk → LayerPartitions → LayerPartitions × Option String
  | [], parts => (parts, none)
  | c :: rest, parts =>
      if chunkGeomSkip region c cellWidth cellHeight then
        processChunksAux tilesets env region cellWidth cellHeight inter rest parts
      else
        let chunkRect := chunkRectOf c cellWidth cellHeight
        if (lookupPartition parts chunkRect).isSome || !inter region chunkRect then
          processChunksAux tilesets env region cellWidth cellHeight inter rest parts
        else
          match decodeTiles c.data tilesets env (c.X * cellWidth) (c.Y * cellHeight)
              (c.Width * cellWidth) (c.Height * cellHeight) cellWidth cellHeight with
          | .error e => (parts, some e)
          | .ok tiles =>
              processChunksAux tilesets env region cellWidth cellHeight inter rest
                (parts ++ [(chunkRect, tiles)])

/-- processChunks of draw.go: a no-op when the layer has no data child or no
chunks; otherwise the partition store (created empty when still nil) is grown
by the chunk loop. -/
def processChunks (layer : Layer) (tilesets : List TMXTileset) (env : String → Option TSX)
    (region : Rect64) (cellWidth cellHeight : Int) (inter : Rect64 → Rect64 → Bool) :
    Layer × Option String :=
  match layer.data with
  | none => (layer, none)
  | some d =>
      if d.chunks.isEmpty then (layer, none)
      else
        let parts0 := layer.partitions.getD []
        let (parts1, err) :=
          processChunksAux tilesets env region cellWidth cellHeight inter d.chunks parts0
        ({ layer with partitions := some parts1 }, err)

/-- processTiles of draw.go: infinite layers delegate to processChunks; a
finite layer is decoded eagerly and fully on first use and the dense tile
list cached (a nil data child would be a nil-pointer fault in the Go code and
is modelled as an error). -/
def processTiles (layer : Layer) (tilesets : List TMXTileset) (env : String → Option TSX)
    (region : Rect64) (layerWidth layerHeight cellWidth cellHeight : Int)
    (isInfinite : Bool) (inter : Rect64 → Rect64 → Bool) : Layer × Option String :=
  if isInfinite then
    processChunks layer tilesets env region cellWidth cellHeight inter
  else if layer.tiles.isSome then (layer, none)
  else
    match layer.data with
    | none => (layer, some "nil layer data")
    | some d =>
        match decodeTiles d.data tilesets env 0 0 layerWidth layerHeight cellWidth cellHeight with
        | .error e => (layer, some e)
        | .ok tiles => ({ layer with tiles := some tiles }, none)

/-- Intersection filter of collectTiles in draw.go: a tile survives unless
its pixel rectangle lies strictly outside the region on some axis (closed
comparison, so rectangles that merely touch the region are kept). -/
def tileKept (region : Rect64) (t : Tile) : Bool :=
  !(t.x + t.width < region.minX || t.x > region.maxX ||
    t.y + t.height < region.minY || t.y > region.maxY)

/-- Result loop of collectTiles: append the tiles that survive the
intersection filter, in order. -/
def collectFilter (region : Rect64) : List Tile → List Tile
  | [] => []
  | t :: rest =>
      if tileKept region t then t :: collectFilter region rest
      else collectFilter region rest

/-- Union of the stored partitions whose rectangle passes the Intersects
test, in store order (Go iterates the map in unspecified order; the claims
settled here do not depend on that order). -/
def collectPartitions (region : Rect64) (inter : Rect64 → Rect64 → Bool) :
    LayerPartitions → List Tile
  | [] => []
  | (r, ts) :: rest =>
      if inter region r then ts ++ collectPartitions region inter rest
      else collectPartitions region inter rest

/-- collectTiles of draw.go: nothing when both caches are nil; otherwise the
candidate list (the dense cache for finite maps, the intersecting partitions
for infinite maps) filtered by the closed intersection test. -/
def collectTiles (layer : Layer) (region : Rect64) (isInfinite : Bool)
    (inter : Rect64 → Rect64 → Bool) : List Tile :=
  if layer.tiles = none ∧ layer.partitions = none then []
  else
    let tiles :=
      if isInfinite then collectPartitions region inter (layer.partitions.getD [])
      else layer.tiles.getD []
    collectFilter region tiles

/-! ## ebiten.GeoM and the render transform of drawMapLayer -/

/-- Affine transform of ebiten.GeoM: a point (px, py) maps to
(a * px + b * py + tx, c * px + d * py + ty). -/
structure GeoM where
  a : ℚ
  b : ℚ
  c : ℚ
  d : ℚ
  tx : ℚ
  ty : ℚ
deriving DecidableEq, Repr

/-- GeoM after Reset: the identity transform. -/
def GeoM.identity : GeoM := ⟨1, 0, 0, 1, 0, 0⟩

/-- GeoM.Scale(sx, sy): post-composition with an axis scale (ebiten applies
the current transform first and the scale afterwards). -/
def GeoM.scale (g : GeoM) (sx sy : ℚ) : GeoM :=
  ⟨g.a * sx, g.b * sx, g.c * sy, g.d * sy, g.tx * sx, g.ty * sy⟩

/-- GeoM.Translate(dx, dy): post-composition with a translation. -/
def GeoM.translate (g : GeoM) (dx dy : ℚ) : GeoM :=
  ⟨g.a, g.b, g.c, g.d, g.tx + dx, g.ty + dy⟩

/-- GeoM.Rotate(HalfPi): post-composition with the quarter-turn rotation,
taken exactly (cosine 0, sine 1); the Go code evaluates the same rotation
with float64 trigonometry. -/
def GeoM.rotate90 (g : GeoM) : GeoM :=
  ⟨-g.c, -g.d, g.a, g.b, -g.ty, g.tx⟩

/-- Composition of affine transforms: applyFirst runs first and applyNext
afterwards (the matrix product applyNext * applyFirst). -/
def GeoM.comp (applyNext applyFirst : GeoM) : GeoM :=
  ⟨applyNext.a * applyFirst.a + applyNext.b * applyFirst.c,
   applyNext.a * applyFirst.b + applyNext.b * applyFirst.d,
   applyNext.c * applyFirst.a + applyNext.d * applyFirst.c,
   applyNext.c * applyFirst.b + applyNext.d * applyFirst.d,
   applyNext.a * applyFirst.tx + applyNext.b * applyFirst.ty + applyNext.tx,
   applyNext.c * applyFirst.tx + applyNext.d * applyFirst.ty + applyNext.ty⟩

/-- Pure scale matrix. -/
def scaleM (sx sy : ℚ) : GeoM := ⟨sx, 0, 0, sy, 0, 0⟩

/-- Pure translation matrix. -/
def translateM (dx dy : ℚ) : GeoM := ⟨1, 0, 0, 1, dx, dy⟩

/-- Pure quarter-turn rotation matrix. -/
def rotate90M : GeoM := ⟨0, -1, 1, 0, 0, 0⟩

/-- Transform built by the tile loop of drawMapLayer in draw.go (normal draw
mode): reset, then the diagonal step (rotate a quarter turn, scale x by -1,
translate by (height - width, 0)) when the diagonal flag is set, then the
horizontal step, then the vertical step, then the translation to the world
position of the tile. -/
def tileRenderGeoM (flags : Nat) (width height posX posY : ℚ) : GeoM :=
  let g := GeoM.identity
  let g :=
    if flags &&& FLIP_DIAGONAL != 0 then
      ((g.rotate90).scale (-1) 1).translate (height - width) 0
    else g
  let g :=
    if flags &&& FLIP_HORIZONTAL != 0 then
      (g.scale (-1) 1).translate width 0
    else g
  let g :=
    if flags &&& FLIP_VERTICAL != 0 then
      (g.scale 1 (-1)).translate 0 height
    else g
  g.translate posX posY

/-- Reference transform written from the words of the specification: compose,
in this literal sequence, (1) when the diagonal flag is set a quarter-turn
rotation then an x scale by -1 then a translation by (height - width, 0),
(2) when the horizontal flag is set an x scale by -1 then a translation by
(width, 0), (3) when the vertical flag is set a y scale by -1 then a
translation by (0, height), and (4) the translation to the world position. -/
def specTileTransform (flags : Nat) (width height posX posY : ℚ) : GeoM :=
  let dStep := GeoM.comp (translateM (height - width) 0) (GeoM.comp (scaleM (-1) 1) rotate90M)
  let hStep := GeoM.comp (translateM width 0) (scaleM (-1) 1)
  let vStep := GeoM.comp (translateM 0 height) (scaleM 1 (-1))
  let m := if flags &&& FLIP_DIAGONAL != 0 then dStep else GeoM.identity
  let m := if flags &&& FLIP_HORIZONTAL != 0 then GeoM.comp hStep m else m
  let m := if flags &&& FLIP_VERTICAL != 0 then GeoM.comp vStep m else m
  GeoM.comp (translateM posX posY) m

/-! ## tmx.go: the map document and its accessors -/

/-- TMX of tmx.go: a deserialized map document (the members the settled
claims read: the attribute table and the ordered tileset list). -/
structure TMX where
  attrs : TiledXMLAttrTable
  tilesets : List TMXTileset
deriving DecidableEq, Repr

/-- Width accessor of TMX: the width attribute when present with an integer
tag, 0 otherwise. -/
def TMX.Width (tmx : TMX) : Int :=
  match lookupAttr tmx.attrs "width" with
  | some (.int i) => i
  | _ => 0

/-- Name accessor pattern shared by the document types: the name attribute
when present with a string tag, the empty string otherwise. -/
def TMX.Name (tmx : TMX) : String :=
  match lookupAttr tmx.attrs "name" with
  | some (.str s) => s
  | _ => ""

/-- FindTilesetByTileGID of tmx.go: the backward scan over the tileset list
of the map; none models the (nil, false) failure return. -/
def TMX.FindTilesetByTileGID (tmx : TMX) (gid : Nat) : Option TMXTileset :=
  findTilesetScan tmx.tilesets gid

/-! ## tmx.go: the resource load coordinator -/

/-- State of TmxResourceSystem: the loaded-documents map and the
in-progress-keys set (both guarded by one mutex in the Go code; operations
are modelled at the granularity the mutex makes atomic). -/
structure TmxSystem where
  tilemaps : List (String × TMX)
  loading : List String
deriving DecidableEq, Repr

/-- Go map read tilemaps[key]. -/
def lookupTmx : List (String × TMX) → String → Option TMX
  | [], _ => none
  | (k, v) :: rest, key => if k = key then some v else lookupTmx rest key

/-- try_load of tmx.go: under the lock, fail when the key is already loaded
or already loading, otherwise add it to the loading set. The untouched state
is returned alongside the error so the caller observes no transition. -/
def try_load (rs : TmxSystem) (key : String) : TmxSystem × Option String :=
  if (lookupTmx rs.tilemaps key).isSome then
    (rs, some ("tmx resource is already loaded: " ++ key))
  else if key ∈ rs.loading then
    (rs, some ("tmx resource is already loading: " ++ key))
  else
    ({ rs with loading := key :: rs.loading }, none)

/-- load_tmx of tmx.go: begin with try_load; then fetch and unmarshal the
bytes (the external loader and xml.Unmarshal, combined into the fetch
parameter); the deferred cleanup removes the key from the loading set on
every path after a successful try_load; only a successful decode publishes
the document into the tilemaps map. -/
def load_tmx (rs : TmxSystem) (key : String) (fetch : Except String TMX) :
    TmxSystem × Except String TMX :=
  match try_load rs key with
  | (_, some e) => (rs, .error e)
  | (rs1, none) =>
      match fetch with
      | .error e => ({ rs1 with loading := rs1.loading.erase key }, .error e)
      | .ok tmx =>
          ({ tilemaps := (key, tmx) :: rs1.tilemaps,
             loading := rs1.loading.erase key }, .ok tmx)

/-! ## Derived helpers and concrete fixtures used by the theorems -/

/-- Key list of a partition store. -/
def partKeys (ps : LayerPartitions) : List Rect64 :=
  ps.map Prod.fst

/-- Test of whether an optional attribute value carries the integer tag. -/
def intTagged : Option TiledXMLAttr → Bool
  | some (.int _) => true
  | _ => false

/-- Test of whether an optional attribute value carries the boolean tag. -/
def boolTagged : Option TiledXMLAttr → Bool
  | some (.bool _) => true
  | _ => false

/-- Test of whether an optional attribute value carries the string tag. -/
def strTagged : Option TiledXMLAttr → Bool
  | some (.str _) => true
  | _ => false

/-- Concrete tileset list with first gids 1, 50 and 120, the example of the
specification. -/
def exTilesets : List TMXTileset :=
  [⟨[("firstgid", .int 1), ("source", .str "a.tsx")]⟩,
   ⟨[("firstgid", .int 50), ("source", .str "b.tsx")]⟩,
   ⟨[("firstgid", .int 120), ("source", .str "c.tsx")]⟩]

/-- Concrete asset store holding one tileset document with 8 by 8 tiles. -/
def exEnv : String → Option TSX := fun s =>
  if s = "a.tsx" then some ⟨[("tilewidth", .int 8), ("tileheight", .int 8)], none⟩ else none

/-- Concrete closed axis-aligned intersection test, standing in for the
finch-core Intersects method in concrete runs. -/
def interStd : Rect64 → Rect64 → Bool := fun r1 r2 =>
  decide (r1.minX ≤ r2.maxX ∧ r2.minX ≤ r1.maxX ∧ r1.minY ≤ r2.maxY ∧ r2.minY ≤ r1.maxY)

/-- Payload of one hundred cells, all holding tile 1. -/
def csv100 : List Char :=
  (List.replicate 99 ['1', ',']).flatten ++ ['1']

/-- Single-tileset list (first gid 1) for the concrete scenarios. -/
def tsets1 : List TMXTileset :=
  [⟨[("firstgid", .int 1), ("source", .str "a.tsx")]⟩]

/-- Fully opaque 10 by 10 finite layer whose cells all hold a tile of
exactly the 8 by 8 cell size. -/
def layer100 : Layer :=
  { attrs := [("width", .int 10), ("height", .int 10)]
    data := some ⟨[], [], String.mk csv100⟩
    tiles := none
    partitions := none }

/-- Query region covering tile columns and rows 0 through 4 of an 8 by 8
grid: the (0, 0, 5, 5)-tiles rectangle in pixels. -/
def region55 : Rect64 := ⟨0, 0, 40, 40⟩

/-- The 10 by 10 layer after its eager dense decode. -/
def processed100 : Layer × Option String :=
  processTiles layer100 tsets1 exEnv region55 80 80 8 8 false interStd

/-- Layer holding one tile whose image is 8 wide and 24 tall (three cells
tall) at cell (0, 2); with the bottom-left anchor its pixels span rows 0
through 23. -/
def tallTileLayer : Layer :=
  { attrs := [("width", .int 1), ("height", .int 3)]
    data := some ⟨[], [], "0,0,1"⟩
    tiles := none
    partitions := none }

/-- Asset store for the tall-tile scenario: tiles 8 wide and 24 tall. -/
def tallEnv : String → Option TSX := fun s =>
  if s = "a.tsx" then some ⟨[("tilewidth", .int 8), ("tileheight", .int 24)], none⟩ else none

/-- One 2 by 2 chunk at origin with two opaque and two empty cells. -/
def chunk1 : TMXDataChunk :=
  ⟨[("x", .int 0), ("y", .int 0), ("width", .int 2), ("height", .int 2)], "1,0,0,1"⟩

/-- Infinite-map layer carrying the one concrete chunk, caches still nil. -/
def layerC : Layer :=
  { attrs := [], data := some ⟨[], [chunk1], ""⟩, tiles := none, partitions := none }

/-- Query region covering the concrete chunk. -/
def regionC : Rect64 := ⟨0, 0, 16, 16⟩

/-- The chunk layer after one processChunks call. -/
def pc1 : Layer × Option String :=
  processChunks layerC tsets1 exEnv regionC 8 8 interStd

/-! ## Helper lemmas -/

/-- Mask test against a single bit, as a testBit. -/
theorem and_flag_testBit (raw i : Nat) : ((raw &&& 2 ^ i) != 0) = raw.testBit i := by
  rw [Nat.and_two_pow]
  cases h : raw.testBit i <;> simp [h, Nat.pow_eq_zero]

/-- Splitting with a trailing comma appends one empty token. -/
theorem goSplitCommaAux_append_comma (s acc : List Char) :
    goSplitCommaAux (s ++ [',']) acc = goSplitCommaAux s acc ++ [[]] := by
  induction s generalizing acc with
  | nil => simp [goSplitCommaAux]
  | cons c rest ih =>
      by_cases h : c = ',' <;> simp [goSplitCommaAux, h, ih]

/-- A trailing empty token is skipped by the CSV token loop. -/
theorem parseCsvTokens_append_empty (l : List (List Char)) :
    parseCsvTokens (l ++ [[]]) = parseCsvTokens l := by
  induction l with
  | nil => simp [parseCsvTokens, goTrimSpace]
  | cons tok rest ih =>
      simp only [List.cons_append, parseCsvTokens, List.append_eq, ih]

/-! ## C8: the Integer attribute decoder -/

/-- C8: the Integer attribute decoder is not a strict full-token base-10
parse. Built on fmt.Sscanf with the %d verb, it accepts trailing non-digit
content and leading spaces, so the token 12abc parses as 12 with no error;
only a token with no digit run at all is rejected. This evaluates the
embedded decoder at the failing input of the claim. -/
theorem unmarshal_attr_int_sscanf :
    UnmarshalAttrInt "12abc" = .ok (.int 12) ∧
    UnmarshalAttrInt " 7" = .ok (.int 7) ∧
    UnmarshalAttrInt "7" = .ok (.int 7) ∧
    UnmarshalAttrInt "abc" = .error "invalid integer attribute: abc" :=
  ⟨rfl, rfl, rfl, rfl⟩

/-! ## C10: empty cells -/

/-- C10: a raw cell value whose low 29 bits are zero decodes to no tile and
no error, whatever the four high transform bits hold; the result does not
depend on the tileset list, the asset store or the cell height, so no
tileset lookup is attempted for such a cell. -/
theorem decode_tile_empty_cell (data : Nat) (tilesets : List TMXTileset)
    (env : String → Option TSX) (cellHeight : Int)
    (h : data &&& TILE_ID_MASK = 0) :
    decodeTile data tilesets env cellHeight = .ok none := by
  unfold decodeTile
  simp [h]

/-- Witness for decode_tile_empty_cell at the raw value with only the
horizontal-flip bit set, against a non-empty tileset list. -/
theorem decode_tile_empty_cell_witness :
    (0x80000000 &&& TILE_ID_MASK = 0) ∧
    decodeTile 0x80000000 exTilesets exEnv 8 = .ok none :=
  ⟨by decide, decode_tile_empty_cell 0x80000000 exTilesets exEnv 8 (by decide)⟩

/-! ## C6: the CSV layer-data codec -/

/-- C6 (amended): CSV decoding splits on commas, trims whitespace, skips
empty tokens (a trailing comma never changes the result), parses each
remaining token as an optionally signed base-10 integer converted to uint32,
and rejects a non-numeric token with an error naming it; the two examples of
the specification hold, for both textually identical copies of the
decoder. -/
theorem parse_csv_layer_spec :
    (∀ s : List Char, parseCsvData (String.mk (s ++ [','])) = parseCsvData (String.mk s)) ∧
    parseCsvData "1,2,, 3," = .ok [1, 2, 3] ∧
    parseCsvData "1,a,3" = .error (.invalidToken "a") ∧
    parse_csv_layer_data "1,2,, 3," = .ok [1, 2, 3] ∧
    parse_csv_layer_data "1,a,3" = .error (.invalidToken "a") := by
  refine ⟨?_, rfl, rfl, rfl, rfl⟩
  intro s
  show parseCsvTokens (goSplitCommaAux (s ++ [',']) []) = parseCsvTokens (goSplitCommaAux s [])
  rw [goSplitCommaAux_append_comma, parseCsvTokens_append_empty]

/-- C6 counterexample: the token -1 is not a non-negative base-10 integer,
yet the decoder accepts it and stores its value reduced modulo 2 ^ 32
instead of failing, because strconv.Atoi parses signed integers and the Go
code converts the result with uint32(...). -/
theorem parse_csv_negative_token :
    parse_csv_layer_data "1,-1,3" = .ok [1, 4294967295, 3] :=
  rfl

/-! ## C1: the GID codec and the render-path flag decoder -/

/-- C1 (amended): for every raw 32-bit cell value, the pure codec DecodeTile
extracts the tile index by masking with 0x1FFFFFFF and copies each of the
four flags from exactly its high bit (31, 30, 29, 28), independent of the
other three; the render-path flag decoder decodeTileFlags also copies the
diagonal and hexagonal bits, but produces the horizontal and vertical flags
with both toggled whenever the diagonal bit is set together with at least
one of them (the Tiled diagonal combination rule), and copies them from
their bits otherwise. -/
theorem decode_tile_bit_extraction (raw : Nat) (_hraw : raw < 2 ^ 32) :
    (DecodeTile raw).gid = raw &&& 0x1FFFFFFF ∧
    (DecodeTile raw).horizontalFlip = raw.testBit 31 ∧
    (DecodeTile raw).verticalFlip = raw.testBit 30 ∧
    (DecodeTile raw).diagonalFlip = raw.testBit 29 ∧
    (DecodeTile raw).hexagonalRotate = raw.testBit 28 ∧
    ((decodeTileFlags raw &&& FLIP_DIAGONAL != 0) = raw.testBit 29) ∧
    ((decodeTileFlags raw &&& FLIP_ROTATED_HEX_FLAG != 0) = raw.testBit 28) ∧
    ((decodeTileFlags raw &&& FLIP_HORIZONTAL != 0) =
      if raw.testBit 29 && (raw.testBit 31 || raw.testBit 30) then !raw.testBit 31
      else raw.testBit 31) ∧
    ((decodeTileFlags raw &&& FLIP_VERTICAL != 0) =
      if raw.testBit 29 && (raw.testBit 31 || raw.testBit 30) then !raw.testBit 30
      else raw.testBit 30) := by
  have e31 : FLIP_HORIZONTALLY = 2 ^ 31 := by norm_num [FLIP_HORIZONTALLY]
  have e30 : FLIP_VERTICALLY = 2 ^ 30 := by norm_num [FLIP_VERTICALLY]
  have e29 : FLIP_DIAGONALLY = 2 ^ 29 := by norm_num [FLIP_DIAGONALLY]
  have e28 : FLIP_ROTATED_HEX = 2 ^ 28 := by norm_num [FLIP_ROTATED_HEX]
  have f31 : TILE_FLIP_HORIZONTAL = 2 ^ 31 := by norm_num [TILE_FLIP_HORIZONTAL]
  have f30 : TILE_FLIP_VERTICAL = 2 ^ 30 := by norm_num [TILE_FLIP_VERTICAL]
  have f29 : TILE_FLIP_DIAGONAL = 2 ^ 29 := by norm_num [TILE_FLIP_DIAGONAL]
  have f28 : TILE_FLIP_ROTATED_HEX = 2 ^ 28 := by norm_num [TILE_FLIP_ROTATED_HEX]
  refine ⟨rfl, ?_, ?_, ?_, ?_, ?_, ?_, ?_, ?_⟩ <;>
    simp only [DecodeTile, decodeTileFlags, e31, e30, e29, e28, f31, f30, f29, f28,
      and_flag_testBit] <;>
    cases h31 : raw.testBit 31 <;> cases h30 : raw.testBit 30 <;>
    cases h29 : raw.testBit 29 <;> cases h28 : raw.testBit 28 <;>
    simp [h31, h30, h29, h28] <;> decide

/-- C1 counterexample: at the raw value 0xA0000001 (horizontal and diagonal
bits set, tile index 1) the render-path decoder yields flags with the
horizontal flag clear although bit 31 of the raw value is set (and the
vertical flag set although bit 30 is clear), so the decoded flags are not
each equal to their corresponding high bit there. -/
theorem decode_tile_flag_swap_cx :
    Nat.testBit 0xA0000001 31 = true ∧
    Nat.testBit 0xA0000001 30 = false ∧
    (decodeTileFlags 0xA0000001 &&& FLIP_HORIZONTAL != 0) = false ∧
    (decodeTileFlags 0xA0000001 &&& FLIP_VERTICAL != 0) = true ∧
    decodeTile 0xA0000001 exTilesets exEnv 8 =
      .ok (some
        { gid := 0, tsxSrc := "a.tsx", x := 0, y := 0, width := 8, height := 8,
          flags := FLIP_VERTICAL ||| FLIP_DIAGONAL }) := by
  refine ⟨by decide, by decide, by decide, by decide, rfl⟩

/-- Witness for decode_tile_bit_extraction at the raw value 2684354561
(0xA0000001). -/
theorem decode_tile_bit_extraction_witness :
    ((0xA0000001 : Nat) < 2 ^ 32) ∧
    (DecodeTile 0xA0000001).gid = 0xA0000001 &&& 0x1FFFFFFF ∧
    (DecodeTile 0xA0000001).horizontalFlip = Nat.testBit 0xA0000001 31 :=
  ⟨by norm_num,
   (decode_tile_bit_extraction 0xA0000001 (by norm_num)).1,
   (decode_tile_bit_extraction 0xA0000001 (by norm_num)).2.1⟩

/-! ## C9: typed accessor defaults -/

/-- C9: for every parsed attribute table, a typed accessor whose key is
absent or stored with a different type tag returns the documented per-field
default: 0 for the numeric map width, true for the layer visibility, and the
empty string for names. The accessors are total functions, so no read can
crash. -/
theorem attr_accessor_defaults (tmx : TMX) (layer : Layer)
    (hw : intTagged (lookupAttr tmx.attrs "width") = false)
    (hv : boolTagged (lookupAttr layer.attrs "visible") = false)
    (hn : strTagged (lookupAttr tmx.attrs "name") = false) :
    tmx.Width = 0 ∧ layer.IsVisible = true ∧ tmx.Name = "" := by
  refine ⟨?_, ?_, ?_⟩
  · unfold TMX.Width
    cases h : lookupAttr tmx.attrs "width" with
    | none => rfl
    | some v => cases v <;> simp_all [intTagged]
  · unfold Layer.IsVisible
    cases h : lookupAttr layer.attrs "visible" with
    | none => rfl
    | some v => cases v <;> simp_all [boolTagged]
  · unfold TMX.Name
    cases h : lookupAttr tmx.attrs "name" with
    | none => rfl
    | some v => cases v <;> simp_all [strTagged]

/-- Witness for attr_accessor_defaults on a table whose width is stored with
a string tag, whose visibility is stored with an integer tag, and whose name
is absent. -/
theorem attr_accessor_defaults_witness :
    TMX.Width ⟨[("width", .str "ten")], []⟩ = 0 ∧
    Layer.IsVisible ⟨[("visible", .int 0)], none, none, none⟩ = true ∧
    TMX.Name ⟨[("width", .str "ten")], []⟩ = "" :=
  attr_accessor_defaults ⟨[("width", .str "ten")], []⟩
    ⟨[("visible", .int 0)], none, none, none⟩ (by decide) (by decide) (by decide)

/-! ## C3: GID to tileset resolution -/

/-- C3: on a tileset list ordered by ascending first gid, the backward scan
fails exactly when the (already masked) tile index is below the first gid of
every tileset, in particular on the empty list; and when it returns a
tileset, that tileset belongs to the list, its first gid is at most the tile
index, and its first gid is the greatest one of the list not exceeding the
tile index. -/
theorem find_tileset_by_gid_spec (tilesets : List TMXTileset) (gid : Nat)
    (hsorted : List.Pairwise (fun a b => a.FirstGID ≤ b.FirstGID) tilesets) :
    (findTilesetScan tilesets gid = none ↔ ∀ ts ∈ tilesets, gid < ts.FirstGID) ∧
    (∀ ts, findTilesetScan tilesets gid = some ts →
      ts ∈ tilesets ∧ ts.FirstGID ≤ gid ∧
      ∀ other ∈ tilesets, other.FirstGID ≤ gid → other.FirstGID ≤ ts.FirstGID) := by
  induction tilesets with
  | nil => simp [findTilesetScan]
  | cons head rest ih =>
      rcases List.pairwise_cons.mp hsorted with ⟨hhead, hrest⟩
      obtain ⟨ihnone, ihsome⟩ := ih hrest
      constructor
      · constructor
        · intro h
          unfold findTilesetScan at h
          cases hr : findTilesetScan rest gid with
          | some r => rw [hr] at h; exact absurd h (by simp)
          | none =>
              rw [hr] at h
              by_cases hg : head.FirstGID ≤ gid
              · simp [hg] at h
              · intro ts hts
                rcases List.mem_cons.mp hts with rfl | hmem
                · omega
                · exact ihnone.mp hr ts hmem
        · intro hall
          unfold findTilesetScan
          have hrnone : findTilesetScan rest gid = none :=
            ihnone.mpr fun ts hts => hall ts (List.mem_cons_of_mem _ hts)
          rw [hrnone]
          have hlt : gid < head.FirstGID := hall head (List.mem_cons_self _ _)
          have : ¬ head.FirstGID ≤ gid := by omega
          simp [this]
      · intro ts hts
        unfold findTilesetScan at hts
        cases hr : findTilesetScan rest gid with
        | some r =>
            rw [hr] at hts
            have hrts : r = ts := by injection hts
            subst hrts
            obtain ⟨hmem, hle, hmax⟩ := ihsome r hr
            refine ⟨List.mem_cons_of_mem _ hmem, hle, ?_⟩
            intro other hother hole
            rcases List.mem_cons.mp hother with rfl | hmem2
            · exact hhead r hmem
            · exact hmax other hmem2 hole
        | none =>
            rw [hr] at hts
            by_cases hg : head.FirstGID ≤ gid
            · simp only [hg, if_pos] at hts
              have hhts : head = ts := by injection hts
              subst hhts
              refine ⟨List.mem_cons_self _ _, hg, ?_⟩
              intro other hother hole
              rcases List.mem_cons.mp hother with rfl | hmem2
              · exact le_refl _
              · have := ihnone.mp hr other hmem2
                omega
            · simp [hg] at hts

/-- Witness for find_tileset_by_gid_spec on the example list with first gids
1, 50 and 120: gid 75 resolves to the tileset with first gid 50, gid 0 and
the empty list fail. -/
theorem find_tileset_by_gid_witness :
    List.Pairwise (fun a b : TMXTileset => a.FirstGID ≤ b.FirstGID) exTilesets ∧
    TMX.FindTilesetByTileGID ⟨[], exTilesets⟩ 75 =
      some ⟨[("firstgid", .int 50), ("source", .str "b.tsx")]⟩ ∧
    TMX.FindTilesetByTileGID ⟨[], exTilesets⟩ 0 = none ∧
    TMX.FindTilesetByTileGID ⟨[], []⟩ 75 = none ∧
    (findTilesetScan exTilesets 0 = none ↔ ∀ ts ∈ exTilesets, 0 < ts.FirstGID) ∧
    (∀ ts, findTilesetScan exTilesets 75 = some ts →
      ts ∈ exTilesets ∧ ts.FirstGID ≤ 75 ∧
      ∀ other ∈ exTilesets, other.FirstGID ≤ 75 → other.FirstGID ≤ ts.FirstGID) :=
  ⟨by decide, rfl, rfl, rfl,
   (find_tileset_by_gid_spec exTilesets 0 (by decide)).1,
   (find_tileset_by_gid_spec exTilesets 75 (by decide)).2⟩

/-! ## C2: render transform order -/

/-- C2: the transform built by the tile loop of drawMapLayer equals, for
every flag combination, tile extent and world position, the matrix obtained
by composing in the literal order of the specification: the diagonal step
(quarter-turn rotation, x scale by -1, translation by (height - width, 0))
when the diagonal flag is set, then the horizontal step (x scale by -1,
translation by (width, 0)), then the vertical step (y scale by -1,
translation by (0, height)), then the translation to the world position.
For the diagonal-plus-horizontal combination the result also equals the
hand-computed reference matrix. -/
theorem render_transform_literal_sequence (flags : Nat) (width height posX posY : ℚ) :
    tileRenderGeoM flags width height posX posY =
      specTileTransform flags width height posX posY ∧
    tileRenderGeoM (FLIP_DIAGONAL ||| FLIP_HORIZONTAL) width height posX posY =
      ⟨0, -1, 1, 0, 2 * width - height + posX, posY⟩ := by
  constructor
  · unfold tileRenderGeoM specTileTransform
    by_cases hd : (flags &&& FLIP_DIAGONAL != 0) = true <;>
      by_cases hh : (flags &&& FLIP_HORIZONTAL != 0) = true <;>
        by_cases hv : (flags &&& FLIP_VERTICAL != 0) = true <;>
          simp [hd, hh, hv, GeoM.identity, GeoM.scale, GeoM.translate, GeoM.rotate90,
            GeoM.comp, scaleM, translateM, rotate90M, GeoM.mk.injEq]
  · have h1 : ((FLIP_DIAGONAL ||| FLIP_HORIZONTAL) &&& FLIP_DIAGONAL != 0) = true := by decide
    have h2 : ((FLIP_DIAGONAL ||| FLIP_HORIZONTAL) &&& FLIP_HORIZONTAL != 0) = true := by decide
    have h3 : ((FLIP_DIAGONAL ||| FLIP_HORIZONTAL) &&& FLIP_VERTICAL != 0) = false := by decide
    unfold tileRenderGeoM
    simp only [h1, h2, h3, if_true, Bool.false_eq_true, if_false]
    simp [GeoM.identity, GeoM.scale, GeoM.translate, GeoM.rotate90, GeoM.mk.injEq]
    ring

/-! ## C7: the load coordinator state machine -/

/-- C7: beginning a load fails, without any state transition, whenever the
key is already loaded or already loading, so of two begin attempts from an
unloaded state exactly the first succeeds; a decode failure surfaces the
error, leaves the key out of the loading set (not stuck in Loading) and
publishes no document; a successful decode publishes the document, clears
the loading mark, and makes later begin attempts fail. -/
theorem load_tmx_state_machine (rs : TmxSystem) (key : String) (fetch : Except String TMX)
    (hnl : lookupTmx rs.tilemaps key = none) (hng : key ∉ rs.loading) :
    (∀ st : TmxSystem, (lookupTmx st.tilemaps key).isSome = true ∨ key ∈ st.loading →
      (try_load st key).1 = st ∧ (try_load st key).2.isSome = true) ∧
    ((try_load rs key).2 = none ∧ (try_load (try_load rs key).1 key).2.isSome = true) ∧
    (∀ e : String, fetch = .error e →
      (load_tmx rs key fetch).2 = .error e ∧
      key ∉ (load_tmx rs key fetch).1.loading ∧
      lookupTmx (load_tmx rs key fetch).1.tilemaps key = none) ∧
    (∀ tmx : TMX, fetch = .ok tmx →
      lookupTmx (load_tmx rs key fetch).1.tilemaps key = some tmx ∧
      key ∉ (load_tmx rs key fetch).1.loading ∧
      (try_load (load_tmx rs key fetch).1 key).2.isSome = true) := by
  have htry : try_load rs key = ({ rs with loading := key :: rs.loading }, none) := by
    unfold try_load
    simp [hnl, hng]
  refine ⟨?_, ?_, ?_, ?_⟩
  · intro st hst
    unfold try_load
    rcases hst with hst | hst
    · simp [hst]
    · by_cases hsm : (lookupTmx st.tilemaps key).isSome = true
      · simp [hsm]
      · simp [hsm, hst]
  · rw [htry]
    refine ⟨rfl, ?_⟩
    unfold try_load
    split <;> simp
  · intro e he
    subst he
    unfold load_tmx
    rw [htry]
    simp [List.erase_cons_head, hng, hnl]
  · intro tmx htmx
    subst htmx
    unfold load_tmx
    rw [htry]
    simp only [List.erase_cons_head]
    refine ⟨by simp [lookupTmx], hng, ?_⟩
    unfold try_load
    simp [lookupTmx]

/-- Witness for load_tmx_state_machine from the empty coordinator state:
a failed decode surfaces its error and publishes nothing, and a successful
decode publishes the document under its key. -/
theorem load_tmx_state_machine_witness :
    (load_tmx ⟨[], []⟩ "maps/a.tmx" (.error "markup error")).2 = .error "markup error" ∧
    "maps/a.tmx" ∉ (load_tmx ⟨[], []⟩ "maps/a.tmx" (.error "markup error")).1.loading ∧
    lookupTmx (load_tmx ⟨[], []⟩ "maps/a.tmx" (.error "markup error")).1.tilemaps "maps/a.tmx" = none ∧
    lookupTmx (load_tmx ⟨[], []⟩ "maps/a.tmx" (.ok ⟨[], []⟩)).1.tilemaps "maps/a.tmx" = some ⟨[], []⟩ :=
  ⟨((load_tmx_state_machine ⟨[], []⟩ "maps/a.tmx" (.error "markup error") rfl
      (List.not_mem_nil _)).2.2.1 "markup error" rfl).1,
   ((load_tmx_state_machine ⟨[], []⟩ "maps/a.tmx" (.error "markup error") rfl
      (List.not_mem_nil _)).2.2.1 "markup error" rfl).2.1,
   ((load_tmx_state_machine ⟨[], []⟩ "maps/a.tmx" (.error "markup error") rfl
      (List.not_mem_nil _)).2.2.1 "markup error" rfl).2.2,
   ((load_tmx_state_machine ⟨[], []⟩ "maps/a.tmx" (.ok ⟨[], []⟩) rfl
      (List.not_mem_nil _)).2.2.2 ⟨[], []⟩ rfl).1⟩

/-! ## C4: region queries on finite layers -/

/-- Membership in the result loop of collectTiles: a tile survives exactly
when it is a candidate and passes the closed intersection test. -/
theorem mem_collectFilter (region : Rect64) (l : List Tile) (t : Tile) :
    t ∈ collectFilter region l ↔ t ∈ l ∧ tileKept region t = true := by
  induction l with
  | nil => simp [collectFilter]
  | cons h rest ih =>
      by_cases hk : tileKept region h = true
      · simp only [collectFilter, hk, if_true, List.mem_cons, ih]
        constructor
        · rintro (rfl | ⟨hm, hk2⟩)
          · exact ⟨Or.inl rfl, hk⟩
          · exact ⟨Or.inr hm, hk2⟩
        · rintro ⟨rfl | hm, hk2⟩
          · exact Or.inl rfl
          · exact Or.inr ⟨hm, hk2⟩
      · simp only [collectFilter, hk, Bool.false_eq_true, if_false, List.mem_cons, ih]
        constructor
        · rintro ⟨hm, hk2⟩
          exact ⟨Or.inr hm, hk2⟩
        · rintro ⟨rfl | hm, hk2⟩
          · exact absurd hk2 hk
          · exact ⟨hm, hk2⟩

/-- C4 (amended): on a finite layer a region query returns exactly the
cached tiles whose pixel rectangle meets the query region, with closed
comparisons, so a tile image taller than its cell is returned whenever any
of its pixels overlaps the region and a tile merely touching the region
boundary is returned as well. On the concrete fully opaque 10 by 10 map of
8 by 8 tiles, the (0, 0, 5, 5)-tiles query returns the 36 tiles of columns
and rows 0 through 5, among them the boundary-touching tile of cell (5, 5);
and a tile 24 pixels tall anchored at cell (0, 2) is returned for the
(0, 0, 8, 8) region its cell lies outside of, because its pixels reach
row 0. -/
theorem collect_tiles_region_query (layer : Layer) (region : Rect64)
    (inter : Rect64 → Rect64 → Bool) (t : Tile) :
    (t ∈ collectTiles layer region false inter ↔
      t ∈ layer.tiles.getD [] ∧ tileKept region t = true) ∧
    processed100.2 = none ∧
    (collectTiles processed100.1 region55 false interStd).length = 36 ∧
    (collectTiles processed100.1 region55 false interStd).all
      (fun u => decide (0 ≤ u.x ∧ u.x ≤ 40 ∧ 0 ≤ u.y ∧ u.y ≤ 40)) = true ∧
    ((collectTiles processed100.1 region55 false interStd).filter
      (fun u => u.x == 40 && u.y == 40)).length = 1 ∧
    (processTiles tallTileLayer tsets1 tallEnv ⟨0, 0, 8, 8⟩ 8 24 8 8 false interStd).2 = none ∧
    (collectTiles
      (processTiles tallTileLayer tsets1 tallEnv ⟨0, 0, 8, 8⟩ 8 24 8 8 false interStd).1
      ⟨0, 0, 8, 8⟩ false interStd).length = 1 := by
  refine ⟨?_, rfl, rfl, rfl, rfl, rfl, rfl⟩
  by_cases hb : layer.tiles = none ∧ layer.partitions = none
  · simp [collectTiles, hb, hb.1]
  · simp [collectTiles, hb, mem_collectFilter]

/-- C4 counterexample: the (0, 0, 5, 5)-tiles query on the fully opaque
10 by 10 map returns 36 tiles, not exactly the 25 of rows and columns 0
through 4: the closed intersection comparison also keeps the tiles of
column 5 and row 5, which merely touch the region boundary, such as the
tile at pixel (40, 0). -/
theorem collect_tiles_region_query_cx :
    processed100.2 = none ∧
    (collectTiles processed100.1 region55 false interStd).length = 36 ∧
    ¬ (collectTiles processed100.1 region55 false interStd).length = 25 ∧
    ((collectTiles processed100.1 region55 false interStd).filter
      (fun u => u.x == 40 && u.y == 0)).length = 1 := by
  refine ⟨rfl, rfl, ?_, rfl⟩
  intro h
  have h36 : (collectTiles processed100.1 region55 false interStd).length = 36 := rfl
  omega

/-! ## C5: idempotence of the chunk partition store -/

/-- Lookup succeeds exactly on the stored keys. -/
theorem lookupPartition_isSome_iff (ps : LayerPartitions) (r : Rect64) :
    (lookupPartition ps r).isSome = true ↔ r ∈ partKeys ps := by
  induction ps with
  | nil => simp [lookupPartition, partKeys]
  | cons p rest ih =>
      obtain ⟨a, b⟩ := p
      by_cases h : a = r
      · subst h
        simp [lookupPartition, partKeys]
      · simp [lookupPartition, partKeys, h, ih, Ne.symm h]

/-- Lookup of a stored key is unchanged by entries appended later. -/
theorem lookupPartition_append_left (ps qs : LayerPartitions) (r : Rect64)
    (h : (lookupPartition ps r).isSome = true) :
    lookupPartition (ps ++ qs) r = lookupPartition ps r := by
  induction ps with
  | nil => simp [lookupPartition] at h
  | cons p rest ih =>
      obtain ⟨a, b⟩ := p
      by_cases ha : a = r
      · simp [lookupPartition, ha]
      · simp only [lookupPartition, ha, if_false, List.cons_append] at h ⊢
        exact ih h

/-- Lookup finds an entry appended for its own key. -/
theorem lookupPartition_append_self (ps : LayerPartitions) (r : Rect64) (ts : List Tile) :
    (lookupPartition (ps ++ [(r, ts)]) r).isSome = true := by
  induction ps with
  | nil => simp [lookupPartition]
  | cons p rest ih =>
      obtain ⟨a, b⟩ := p
      by_cases ha : a = r <;> simp [lookupPartition, ha, ih]

/-- The chunk loop only appends to the partition store. -/
theorem processChunksAux_prefix (tilesets : List TMXTileset) (env : String → Option TSX)
    (region : Rect64) (cw ch : Int) (inter : Rect64 → Rect64 → Bool)
    (chunks : List TMXDataChunk) (parts : LayerPartitions) :
    ∃ extra, (processChunksAux tilesets env region cw ch inter chunks parts).1 =
      parts ++ extra := by
  induction chunks generalizing parts with
  | nil => exact ⟨[], by simp [processChunksAux]⟩
  | cons c rest ih =>
      unfold processChunksAux
      by_cases h1 : chunkGeomSkip region c cw ch = true
      · simpa [h1] using ih parts
      · simp only [h1, Bool.false_eq_true, if_false]
        by_cases h2 : ((lookupPartition parts (chunkRectOf c cw ch)).isSome ||
            !inter region (chunkRectOf c cw ch)) = true
        · simpa [h2] using ih parts
        · simp only [h2, Bool.false_eq_true, if_false]
          cases hd : decodeTiles c.data tilesets env (c.X * cw) (c.Y * ch)
              (c.Width * cw) (c.Height * ch) cw ch with
          | error e => exact ⟨[], by simp⟩
          | ok tiles =>
              obtain ⟨extra, hextra⟩ := ih (parts ++ [(chunkRectOf c cw ch, tiles)])
              exact ⟨[(chunkRectOf c cw ch, tiles)] ++ extra, by
                rw [hextra, List.append_assoc]⟩

/-- A key stored before the chunk loop runs is still stored afterwards. -/
theorem processChunksAux_mono (tilesets : List TMXTileset) (env : String → Option TSX)
    (region : Rect64) (cw ch : Int) (inter : Rect64 → Rect64 → Bool)
    (chunks : List TMXDataChunk) (parts : LayerPartitions) (r : Rect64)
    (h : (lookupPartition parts r).isSome = true) :
    (lookupPartition (processChunksAux tilesets env region cw ch inter chunks parts).1 r).isSome
      = true := by
  obtain ⟨extra, hextra⟩ := processChunksAux_prefix tilesets env region cw ch inter chunks parts
  rw [hextra, lookupPartition_append_left _ _ _ h]
  exact h

/-- After a successful run of the chunk loop, every chunk of the list is
either rejected by the geometric pre-check, rejected by the Intersects test,
or present in the resulting store under its rectangle. -/
theorem processChunksAux_covered (tilesets : List TMXTileset) (env : String → Option TSX)
    (region : Rect64) (cw ch : Int) (inter : Rect64 → Rect64 → Bool)
    (chunks : List TMXDataChunk) (parts P : LayerPartitions)
    (h : processChunksAux tilesets env region cw ch inter chunks parts = (P, none)) :
    ∀ c ∈ chunks, chunkGeomSkip region c cw ch = true ∨
      inter region (chunkRectOf c cw ch) = false ∨
      (lookupPartition P (chunkRectOf c cw ch)).isSome = true := by
  induction chunks generalizing parts with
  | nil => intro c hc; exact absurd hc (List.not_mem_nil c)
  | cons c0 rest ih =>
      unfold processChunksAux at h
      intro c hc
      rcases List.mem_cons.mp hc with rfl | hmem
      · by_cases h1 : chunkGeomSkip region c cw ch = true
        · exact Or.inl h1
        · simp only [h1, Bool.false_eq_true, if_false] at h
          by_cases hsm : (lookupPartition parts (chunkRectOf c cw ch)).isSome = true
          · refine Or.inr (Or.inr ?_)
            have hP : P = (processChunksAux tilesets env region cw ch inter rest parts).1 := by
              by_cases h2 : ((lookupPartition parts (chunkRectOf c cw ch)).isSome ||
                  !inter region (chunkRectOf c cw ch)) = true
              · rw [if_pos h2] at h
                rw [h]
              · simp [hsm] at h2
            rw [hP]
            exact processChunksAux_mono tilesets env region cw ch inter rest parts _ hsm
          · by_cases hint : inter region (chunkRectOf c cw ch) = false
            · exact Or.inr (Or.inl hint)
            · have h2 : ((lookupPartition parts (chunkRectOf c cw ch)).isSome ||
                  !inter region (chunkRectOf c cw ch)) = false := by
                simp only [Bool.or_eq_false_iff, Bool.not_eq_true']
                exact ⟨by simpa using hsm, by simpa using hint⟩
              rw [h2] at h
              simp only [Bool.false_eq_true, if_false] at h
              cases hd : decodeTiles c.data tilesets env (c.X * cw) (c.Y * ch)
                  (c.Width * cw) (c.Height * ch) cw ch with
              | error e =>
                  simp only [hd] at h
                  exact absurd (congrArg Prod.snd h) (by simp)
              | ok tiles =>
                  simp only [hd] at h
                  refine Or.inr (Or.inr ?_)
                  have hP : P = (processChunksAux tilesets env region cw ch inter rest
                      (parts ++ [(chunkRectOf c cw ch, tiles)])).1 := by rw [h]
                  rw [hP]
                  exact processChunksAux_mono tilesets env region cw ch inter rest _ _
                    (lookupPartition_append_self parts _ tiles)
      · by_cases h1 : chunkGeomSkip region c0 cw ch = true
        · rw [if_pos h1] at h
          exact ih parts h c hmem
        · simp only [h1, Bool.false_eq_true, if_false] at h
          by_cases h2 : ((lookupPartition parts (chunkRectOf c0 cw ch)).isSome ||
              !inter region (chunkRectOf c0 cw ch)) = true
          · rw [if_pos h2] at h
            exact ih parts h c hmem
          · simp only [h2, Bool.false_eq_true, if_false] at h
            cases hd : decodeTiles c0.data tilesets env (c0.X * cw) (c0.Y * ch)
                (c0.Width * cw) (c0.Height * ch) cw ch with
            | error e =>
                simp only [hd] at h
                exact absurd (congrArg Prod.snd h) (by simp)
            | ok tiles =>
                simp only [hd] at h
                exact ih (parts ++ [(chunkRectOf c0 cw ch, tiles)]) h c hmem

/-- When every chunk of the list is rejected by a pre-check or already
stored, the chunk loop changes nothing and reports no error. -/
theorem processChunksAux_noop (tilesets : List TMXTileset) (env : String → Option TSX)
    (region : Rect64) (cw ch : Int) (inter : Rect64 → Rect64 → Bool)
    (chunks : List TMXDataChunk) (parts : LayerPartitions)
    (h : ∀ c ∈ chunks, chunkGeomSkip region c cw ch = true ∨
      inter region (chunkRectOf c cw ch) = false ∨
      (lookupPartition parts (chunkRectOf c cw ch)).isSome = true) :
    processChunksAux tilesets env region cw ch inter chunks parts = (parts, none) := by
  induction chunks with
  | nil => simp [processChunksAux]
  | cons c rest ih =>
      have hrest := fun c2 hc2 => h c2 (List.mem_cons_of_mem _ hc2)
      have hc := h c (List.mem_cons_self _ _)
      unfold processChunksAux
      by_cases h1 : chunkGeomSkip region c cw ch = true
      · rw [if_pos h1]
        exact ih hrest
      · have h2 : ((lookupPartition parts (chunkRectOf c cw ch)).isSome ||
            !inter region (chunkRectOf c cw ch)) = true := by
          rcases hc with hc | hc | hc
          · exact absurd hc h1
          · simp [hc]
          · simp [hc]
        simp only [h1, Bool.false_eq_true, if_false, h2, if_true]
        exact ih hrest

/-- The chunk loop preserves uniqueness of the stored keys: an insertion
happens only after the lookup found the rectangle absent. -/
theorem processChunksAux_nodup (tilesets : List TMXTileset) (env : String → Option TSX)
    (region : Rect64) (cw ch : Int) (inter : Rect64 → Rect64 → Bool)
    (chunks : List TMXDataChunk) (parts : LayerPartitions)
    (h : (partKeys parts).Nodup) :
    (partKeys (processChunksAux tilesets env region cw ch inter chunks parts).1).Nodup := by
  induction chunks generalizing parts with
  | nil => simpa [processChunksAux]
  | cons c rest ih =>
      unfold processChunksAux
      by_cases h1 : chunkGeomSkip region c cw ch = true
      · rw [if_pos h1]
        exact ih parts h
      · simp only [h1, Bool.false_eq_true, if_false]
        by_cases h2 : ((lookupPartition parts (chunkRectOf c cw ch)).isSome ||
            !inter region (chunkRectOf c cw ch)) = true
        · rw [if_pos h2]
          exact ih parts h
        · simp only [h2, Bool.false_eq_true, if_false]
          cases hd : decodeTiles c.data tilesets env (c.X * cw) (c.Y * ch)
              (c.Width * cw) (c.Height * ch) cw ch with
          | error e => simpa using h
          | ok tiles =>
              refine ih (parts ++ [(chunkRectOf c cw ch, tiles)]) ?_
              have habs : ¬ (lookupPartition parts (chunkRectOf c cw ch)).isSome = true := by
                intro hsm
                simp [hsm] at h2
              have hnotmem : chunkRectOf c cw ch ∉ partKeys parts := by
                intro hm
                exact habs ((lookupPartition_isSome_iff parts _).mpr hm)
              simp [partKeys, List.nodup_append]
              exact ⟨by simpa [partKeys] using h, by
                simpa [partKeys] using hnotmem⟩

/-- C5: ensuring a chunk is decoded is idempotent: when a processChunks pass
over a layer succeeds, running processChunks again on the result (the same
chunks, region and parameters) returns the state unchanged with no error, so
each chunk rectangle keeps the tile list the single pass produced; and the
store keeps exactly one entry per rectangle (key uniqueness is preserved
from the initial store). -/
theorem process_chunks_idempotent (layer : Layer) (tilesets : List TMXTileset)
    (env : String → Option TSX) (region : Rect64) (cw ch : Int)
    (inter : Rect64 → Rect64 → Bool)
    (hok : (processChunks layer tilesets env region cw ch inter).2 = none)
    (hnd : (partKeys (layer.partitions.getD [])).Nodup) :
    processChunks (processChunks layer tilesets env region cw ch inter).1
        tilesets env region cw ch inter
      = ((processChunks layer tilesets env region cw ch inter).1, none) ∧
    (partKeys ((processChunks layer tilesets env region cw ch inter).1.partitions.getD
      [])).Nodup := by
  cases hdata : layer.data with
  | none => simp_all [processChunks]
  | some d =>
      by_cases hchunks : d.chunks.isEmpty = true
      · simp_all [processChunks]
      · rcases haux : processChunksAux tilesets env region cw ch inter d.chunks
            (layer.partitions.getD []) with ⟨P, err⟩
        have hpc : processChunks layer tilesets env region cw ch inter
            = ({ layer with partitions := some P }, err) := by
          unfold processChunks
          rw [hdata]
          simp only [hchunks, Bool.false_eq_true, if_false, haux]
        have herr : err = none := by
          rw [hpc] at hok
          exact hok
        subst herr
        rw [hpc]
        have hcov := processChunksAux_covered tilesets env region cw ch inter d.chunks
          (layer.partitions.getD []) P haux
        constructor
        · unfold processChunks
          simp only [hdata, hchunks, Bool.false_eq_true, if_false, Option.getD_some]
          rw [processChunksAux_noop tilesets env region cw ch inter d.chunks P hcov]
        · have := processChunksAux_nodup tilesets env region cw ch inter d.chunks
            (layer.partitions.getD []) hnd
          rw [haux] at this
          simpa using this

/-- Witness for process_chunks_idempotent on the concrete one-chunk layer:
the first pass decodes the chunk and stores one entry, and a second pass is
the identity. -/
theorem process_chunks_idempotent_witness :
    pc1.2 = none ∧
    (partKeys (pc1.1.partitions.getD [])).Nodup ∧
    (pc1.1.partitions.getD []).length = 1 ∧
    processChunks pc1.1 tsets1 exEnv regionC 8 8 interStd = (pc1.1, none) :=
  ⟨rfl,
   (process_chunks_idempotent layerC tsets1 exEnv regionC 8 8 interStd rfl (by decide)).2,
   rfl,
   (process_chunks_idempotent layerC tsets1 exEnv regionC 8 8 interStd rfl (by decide)).1⟩

end FinchTiled
